import Mathlib

/-!
Verification of the UVOL volumetric-video player (`src/V2/player.ts` and the
two unnamed player sources).  The prefetch scheduler (`fetchBuffers`), the
adaptive quality controller (`adjustTextureTarget`), the presentation step
(`processFrame`), the eviction helpers and the wall clock are embedded as
executable Lean functions, translated statement by statement from the
TypeScript source.  JS numbers holding frame counts, frame numbers and
millisecond timestamps are modelled as `ℤ`; seconds and stat ratios as `ℚ`.
-/

namespace UVOL

/-- Per-stream parameters of the leaky-bucket scheduler, read from the
manifest: `targets[target].frameRate` and `targets[target].frameCount`. -/
structure StreamParams where
  frameRate : ℤ
  frameCount : ℤ
deriving DecidableEq

/-- The integer interval `[lo, hi]` as a list, in increasing order.  This is
the set of frames requested by one `for (; f <= requestEnd; f++)` loop in
`fetchBuffers`. -/
def rangeList (lo hi : ℤ) : List ℤ :=
  (List.range (hi + 1 - lo).toNat).map (fun k : ℕ => lo + (k : ℤ))

/-- The candidate horizon of lookahead iteration `i`:
`Math.min(currentFrame + (i + 1) * frameRate, frameCount - 1)`. -/
def requestEnd (p : StreamParams) (currentFrame : ℤ) (i : ℕ) : ℤ :=
  min (currentFrame + ((i : ℤ) + 1) * p.frameRate) (p.frameCount - 1)

/-- One iteration `i` of the lookahead loop of `fetchBuffers`
(part_001 lines 474-507, player.ts 444-479): if the high-water mark is not
at end-of-stream and is below `requestEnd`, request every frame in
`(mark, requestEnd]` and set the mark to `requestEnd`.
The state is `(mark, requests issued so far this tick)`. -/
def streamIter (p : StreamParams) (currentFrame : ℤ) (st : ℤ × List ℤ) (i : ℕ) : ℤ × List ℤ :=
  if st.1 ≠ p.frameCount - 1 ∧ st.1 < requestEnd p currentFrame i then
    (requestEnd p currentFrame i, st.2 ++ rangeList (st.1 + 1) (requestEnd p currentFrame i))
  else st

/-- One `fetchBuffers` tick for a single stream: the loop
`for (let i = 0; i < bufferDuration; i++)`.  `fetchBuffers` runs this same
logic for the geometry stream and for each texture type's current target,
each with its own `StreamParams`, current frame and high-water mark.
Returns the new high-water mark and the frames requested during the tick. -/
def streamTick (bufferDuration : ℕ) (p : StreamParams) (currentFrame mark : ℤ) :
    ℤ × List ℤ :=
  (List.range bufferDuration).foldl (streamIter p currentFrame) (mark, [])

/-- The high-water mark after a sequence of `fetchBuffers` ticks, the tick at
position `k` seeing playhead frame `cs[k]`. -/
def runTicks (bufferDuration : ℕ) (p : StreamParams) (cs : List ℤ) (mark : ℤ) : ℤ :=
  cs.foldl (fun m c => (streamTick bufferDuration p c m).1) mark

/-- The high-water mark together with all frames requested across a sequence
of `fetchBuffers` ticks (one track session for this stream). -/
def runTicksReq (bufferDuration : ℕ) (p : StreamParams) (cs : List ℤ) (st : ℤ × List ℤ) :
    ℤ × List ℤ :=
  cs.foldl (fun acc c =>
    let r := streamTick bufferDuration p c acc.1
    (r.1, acc.2 ++ r.2)) st

/-- C1: the claim says the first `fetchBuffers` tick at t = 0 with
frameRate 30, frameCount 300, bufferDuration 4 requests exactly frames
0..119 with high-water mark 119.  The code's last lookahead iteration
computes `requestEnd = min(0 + 4*30, 299) = 120` and the request loop is
inclusive, so frame 120 is also requested and the mark ends at 120,
refuting the claim at this concrete input. -/
theorem C1_counterexample :
    (streamTick 4 ⟨30, 300⟩ 0 (-1)).1 = 120 ∧
      (streamTick 4 ⟨30, 300⟩ 0 (-1)).1 ≠ 119 ∧
      (120 : ℤ) ∈ (streamTick 4 ⟨30, 300⟩ 0 (-1)).2 := by
  decide

/-- C1 (amended): for a geometry target with frameRate 30 and frameCount 300,
bufferDuration 4, the first `fetchBuffers` tick at currentTime = 0 issues
geometry decode requests for exactly the frames 0 through 120 (in order) and
no others, and the high-water mark afterward equals 120. -/
theorem C1_first_tick_requests :
    streamTick 4 ⟨30, 300⟩ 0 (-1) = (120, rangeList 0 120) := by
  decide

/-- A `foldl` preserves any invariant preserved by each step. -/
theorem foldl_invariant {α β : Type} (P : α → Prop) (Q : β → Prop) (f : α → β → α)
    (hstep : ∀ a b, Q b → P a → P (f a b)) :
    ∀ (l : List β) (init : α), (∀ b ∈ l, Q b) → P init → P (l.foldl f init) := by
  intro l
  induction l with
  | nil => intro init _ h0; exact h0
  | cons b t ih =>
      intro init hl h0
      exact ih _ (fun x hx => hl x (List.mem_cons_of_mem _ hx))
        (hstep _ _ (hl b (List.mem_cons_self _ _)) h0)

theorem streamIter_mark_le (p : StreamParams) (c : ℤ) (st : ℤ × List ℤ) (i : ℕ) :
    st.1 ≤ (streamIter p c st i).1 := by
  unfold streamIter
  split
  · rename_i h
    exact le_of_lt h.2
  · exact le_rfl

theorem streamIter_cap (p : StreamParams) (c : ℤ) (st : ℤ × List ℤ) (i : ℕ)
    (h : st.1 ≤ p.frameCount - 1) : (streamIter p c st i).1 ≤ p.frameCount - 1 := by
  unfold streamIter
  split
  · exact min_le_right _ _
  · exact h

theorem streamIter_bound {B : ℕ} (p : StreamParams) (c : ℤ) (st : ℤ × List ℤ) {i : ℕ}
    (hi : i < B) (hr : 0 ≤ p.frameRate) (h : st.1 ≤ c + (B : ℤ) * p.frameRate) :
    (streamIter p c st i).1 ≤ c + (B : ℤ) * p.frameRate := by
  unfold streamIter
  split
  · refine le_trans (min_le_left _ _) ?_
    have h1 : ((i : ℤ) + 1) ≤ (B : ℤ) := by exact_mod_cast hi
    have h2 := mul_le_mul_of_nonneg_right h1 hr
    linarith
  · exact h

theorem streamTick_mark_le (B : ℕ) (p : StreamParams) (c mark : ℤ) :
    mark ≤ (streamTick B p c mark).1 := by
  unfold streamTick
  refine foldl_invariant (fun (st : ℤ × List ℤ) => mark ≤ st.1) (fun _ => True) _
    ?_ _ _ (fun _ _ => trivial) le_rfl
  intro a b _ ha
  exact le_trans ha (streamIter_mark_le p c a b)

theorem streamTick_cap (B : ℕ) (p : StreamParams) (c mark : ℤ)
    (h : mark ≤ p.frameCount - 1) : (streamTick B p c mark).1 ≤ p.frameCount - 1 := by
  unfold streamTick
  refine foldl_invariant (fun (st : ℤ × List ℤ) => st.1 ≤ p.frameCount - 1)
    (fun _ => True) _ ?_ _ _ (fun _ _ => trivial) h
  intro a b _ ha
  exact streamIter_cap p c a b ha

theorem streamTick_bound (B : ℕ) (p : StreamParams) (c mark : ℤ)
    (hr : 0 ≤ p.frameRate) (h : mark ≤ c + (B : ℤ) * p.frameRate) :
    (streamTick B p c mark).1 ≤ c + (B : ℤ) * p.frameRate := by
  unfold streamTick
  refine foldl_invariant (fun (st : ℤ × List ℤ) => st.1 ≤ c + (B : ℤ) * p.frameRate)
    (fun i => i < B) _ ?_ _ _ (fun b hb => List.mem_range.mp hb) h
  intro a i hQ hP
  exact streamIter_bound p c a hQ hr hP

theorem runTicks_mono_append (B : ℕ) (p : StreamParams) (cs : List ℤ) (c mark : ℤ) :
    runTicks B p cs mark ≤ runTicks B p (cs ++ [c]) mark := by
  unfold runTicks
  rw [List.foldl_append]
  exact streamTick_mark_le B p c _

theorem runTicks_cap (B : ℕ) (p : StreamParams) (cs : List ℤ) (mark : ℤ)
    (h : mark ≤ p.frameCount - 1) : runTicks B p cs mark ≤ p.frameCount - 1 := by
  unfold runTicks
  refine foldl_invariant (fun (m : ℤ) => m ≤ p.frameCount - 1) (fun _ => True) _
    ?_ _ _ (fun _ _ => trivial) h
  intro a b _ ha
  exact streamTick_cap B p b a ha

/-- player.ts `TextureFrameCount(textureType)` (lines 216-220): it looks up
the given type's *current target name* in the **baseColor** table,
regardless of the type:
`manifest.texture.baseColor.targets[currentTarget].frameCount ?? 0`.
`targets ty tgt` models `manifest.texture[ty].targets[tgt]`. -/
def TextureFrameCountJS (targets : String → String → Option StreamParams)
    (currentTarget : String) : ℤ :=
  match targets "baseColor" currentTarget with
  | some d => d.frameCount
  | none => 0

/-- The `StreamParams` with which player.ts's `fetchBuffers` runs the
lookahead loop for texture type `ty` with current target `tgt`: the frame
rate is the stream's own (`manifest.texture[ty].targets[tgt].frameRate`,
lines 437-442), but the frame count used for both the end-of-stream check
and the `min` cap is `TextureFrameCount(ty)` (lines 463-469), which reads
the like-named baseColor target.  (The frame-rate fallback 0 is never hit:
`fetchBuffers` only runs for types whose current target exists.) -/
def textureStreamParams (targets : String → String → Option StreamParams)
    (ty tgt : String) : StreamParams :=
  { frameRate :=
      match targets ty tgt with
      | some d => d.frameRate
      | none => 0,
    frameCount := TextureFrameCountJS targets tgt }

/-- A manifest slice exhibiting the cap mismatch: the baseColor table's
target "t" has frameCount 300 while the normalMap table's own target "t"
has frameCount 10 (both 30 fps). -/
def cexManifest : String → String → Option StreamParams := fun ty tgt =>
  if ty = "baseColor" ∧ tgt = "t" then some ⟨30, 300⟩
  else if ty = "normalMap" ∧ tgt = "t" then some ⟨30, 10⟩
  else none

/-- C2 counterexample: in player.ts the normalMap stream of `cexManifest`
runs its lookahead with the like-named baseColor target's frameCount 300
(`TextureFrameCount` reads `manifest.texture.baseColor` for every type),
so its first tick at playhead 0 leaves the high-water mark at 120, which
exceeds that stream's own target's frameCount - 1 = 9 — refuting "it never
exceeds frameCount - 1 for that stream's target". -/
theorem C2_counterexample :
    (streamTick 4 (textureStreamParams cexManifest "normalMap" "t") 0 (-1)).1 = 120 ∧
      (match cexManifest "normalMap" "t" with
        | some d => d.frameCount
        | none => 0) - 1 = 9 ∧
      ¬ ((120 : ℤ) ≤ 9) := by
  decide

/-- C2 (amended): across any sequence of `fetchBuffers` ticks each stream's
`lastRequestedFrame` (initialized to -1 in `playTrack`) is non-decreasing
from each tick to the next, and after any tick it never exceeds
capFrameCount - 1, where capFrameCount is the frame count the scheduler
reads for that stream: the stream's own target's frameCount for the
geometry stream and for the baseColor type (first conjunct, `p` ranging
over the parameters the per-stream update runs with), but — for the other
texture types in player.ts — the frameCount of the like-named baseColor
target, since `TextureFrameCount` reads `manifest.texture.baseColor` for
every type (second conjunct). -/
theorem C2_highwater_monotone_capped :
    (∀ (B : ℕ) (p : StreamParams) (cs : List ℤ) (c : ℤ), 0 ≤ p.frameCount →
      runTicks B p cs (-1) ≤ runTicks B p (cs ++ [c]) (-1) ∧
        runTicks B p (cs ++ [c]) (-1) ≤ p.frameCount - 1) ∧
      (∀ (B : ℕ) (targets : String → String → Option StreamParams)
        (ty tgt : String) (cs : List ℤ) (c : ℤ),
        0 ≤ TextureFrameCountJS targets tgt →
        runTicks B (textureStreamParams targets ty tgt) cs (-1) ≤
            runTicks B (textureStreamParams targets ty tgt) (cs ++ [c]) (-1) ∧
          runTicks B (textureStreamParams targets ty tgt) (cs ++ [c]) (-1) ≤
            TextureFrameCountJS targets tgt - 1) := by
  constructor
  · intro B p cs c hfc
    exact ⟨runTicks_mono_append B p cs c (-1),
      runTicks_cap B p (cs ++ [c]) (-1) (by omega)⟩
  · intro B targets ty tgt cs c hfc
    refine ⟨runTicks_mono_append B _ cs c (-1),
      runTicks_cap B _ (cs ++ [c]) (-1) ?_⟩
    show (-1 : ℤ) ≤ (textureStreamParams targets ty tgt).frameCount - 1
    have h : (textureStreamParams targets ty tgt).frameCount =
        TextureFrameCountJS targets tgt := rfl
    omega

/-- C2 witness: geometry stream with frameRate 30, frameCount 300,
bufferDuration 4, ticks at playhead frames 0 then 60; and the normalMap
stream of `cexManifest`, capped at its baseColor-read count 300. -/
theorem C2_witness :
    ((0 : ℤ) ≤ 300 ∧
      (runTicks 4 ⟨30, 300⟩ [0] (-1) ≤ runTicks 4 ⟨30, 300⟩ ([0] ++ [60]) (-1) ∧
        runTicks 4 ⟨30, 300⟩ ([0] ++ [60]) (-1) ≤ 300 - 1)) ∧
      ((0 : ℤ) ≤ TextureFrameCountJS cexManifest "t" ∧
        runTicks 4 (textureStreamParams cexManifest "normalMap" "t") ([0] ++ [60]) (-1) ≤
          TextureFrameCountJS cexManifest "t" - 1) :=
  ⟨⟨by decide, C2_highwater_monotone_capped.1 4 ⟨30, 300⟩ [0] 60 (by decide)⟩,
    ⟨by decide,
      (C2_highwater_monotone_capped.2 4 cexManifest "normalMap" "t" [0] 60 (by decide)).2⟩⟩

theorem streamChain_bound (B : ℕ) (p : StreamParams) (hr : 0 ≤ p.frameRate) :
    ∀ (cs : List ℤ) (c mark prev : ℤ), mark ≤ prev + (B : ℤ) * p.frameRate →
      List.Chain (· ≤ ·) prev (cs ++ [c]) →
      runTicks B p (cs ++ [c]) mark - c ≤ (B : ℤ) * p.frameRate := by
  intro cs
  induction cs with
  | nil =>
      intro c mark prev h hch
      rw [List.nil_append, List.chain_cons] at hch
      have h1 : mark ≤ c + (B : ℤ) * p.frameRate := by linarith [hch.1]
      have h2 := streamTick_bound B p c mark hr h1
      simp only [runTicks, List.nil_append, List.foldl_cons, List.foldl_nil]
      linarith
  | cons a t ih =>
      intro c mark prev h hch
      rw [List.cons_append, List.chain_cons] at hch
      have h1 : mark ≤ a + (B : ℤ) * p.frameRate := by linarith [hch.1]
      have h2 := streamTick_bound B p a mark hr h1
      have h3 := ih c ((streamTick B p a mark).1) a h2 hch.2
      simpa only [runTicks, List.cons_append, List.foldl_cons] using h3

theorem chain_of_chain'_nonneg (l : List ℤ) (h : List.Chain' (· ≤ ·) l)
    (hnn : ∀ x ∈ l, 0 ≤ x) : List.Chain (· ≤ ·) 0 l := by
  cases l with
  | nil => exact List.Chain.nil
  | cons a t => exact List.Chain.cons (hnn a (List.mem_cons_self a t)) h

/-- The texture (segment) block of part_000's lookahead loop
(lines 296-311): the leaky-bucket gap check
`lastRequested - current < bufferDuration * size` with the end-of-stream
check, then `continue` (here: no-op, the block is last in the body) when
the horizon did not advance, else request `(mark, requestEnd]` and advance
the mark.  For the texture stream, `frameRate` stands for
`ceil(frameRate / BatchSize)` (segments per second) and `frameCount` for
`TextureSegmentCount`. -/
def v1TexStep (tp : StreamParams) (B : ℕ) (tc : ℤ) (t : ℤ × List ℤ) (i : ℕ) :
    ℤ × List ℤ :=
  if t.1 - tc < (B : ℤ) * tp.frameRate ∧ t.1 ≠ tp.frameCount - 1 then
    if requestEnd tp tc i < t.1 + 1 then t
    else (requestEnd tp tc i, t.2 ++ rangeList (t.1 + 1) (requestEnd tp tc i))
  else t

/-- One iteration of part_000's combined lookahead loop (lines 278-312):
the geometry block runs first with the same gap check; its `continue` on a
non-advancing horizon skips the texture block for that iteration.  The
state pairs the geometry stream's (mark, requests) with the texture
stream's. -/
def v1Iter (gp tp : StreamParams) (B : ℕ) (gc tc : ℤ)
    (st : (ℤ × List ℤ) × (ℤ × List ℤ)) (i : ℕ) : (ℤ × List ℤ) × (ℤ × List ℤ) :=
  if st.1.1 - gc < (B : ℤ) * gp.frameRate ∧ st.1.1 ≠ gp.frameCount - 1 then
    if requestEnd gp gc i < st.1.1 + 1 then st
    else
      ((requestEnd gp gc i, st.1.2 ++ rangeList (st.1.1 + 1) (requestEnd gp gc i)),
        v1TexStep tp B tc st.2 i)
  else (st.1, v1TexStep tp B tc st.2 i)

/-- One part_000 `fetchBuffers` tick: `for (let i = 0; i < bufferDuration;
i++)` over both streams, starting from the current high-water marks. -/
def v1Tick (gp tp : StreamParams) (B : ℕ) (gc tc gMark tMark : ℤ) :
    (ℤ × List ℤ) × (ℤ × List ℤ) :=
  (List.range B).foldl (v1Iter gp tp B gc tc) ((gMark, []), (tMark, []))

theorem v1TexStep_bound (tp : StreamParams) (B : ℕ) (tc : ℤ) (t : ℤ × List ℤ) {i : ℕ}
    (hi : i < B) (hr : 0 ≤ tp.frameRate) (h : t.1 ≤ tc + (B : ℤ) * tp.frameRate) :
    (v1TexStep tp B tc t i).1 ≤ tc + (B : ℤ) * tp.frameRate := by
  unfold v1TexStep
  split
  · split
    · exact h
    · refine le_trans (min_le_left _ _) ?_
      have h1 : ((i : ℤ) + 1) ≤ (B : ℤ) := by exact_mod_cast hi
      have h2 := mul_le_mul_of_nonneg_right h1 hr
      linarith
  · exact h

theorem v1Iter_bound (gp tp : StreamParams) (B : ℕ) (gc tc : ℤ)
    (st : (ℤ × List ℤ) × (ℤ × List ℤ)) {i : ℕ} (hi : i < B)
    (hgr : 0 ≤ gp.frameRate) (htr : 0 ≤ tp.frameRate)
    (h : st.1.1 ≤ gc + (B : ℤ) * gp.frameRate ∧ st.2.1 ≤ tc + (B : ℤ) * tp.frameRate) :
    (v1Iter gp tp B gc tc st i).1.1 ≤ gc + (B : ℤ) * gp.frameRate ∧
      (v1Iter gp tp B gc tc st i).2.1 ≤ tc + (B : ℤ) * tp.frameRate := by
  unfold v1Iter
  split
  · split
    · exact h
    · constructor
      · refine le_trans (min_le_left _ _) ?_
        have h1 : ((i : ℤ) + 1) ≤ (B : ℤ) := by exact_mod_cast hi
        have h2 := mul_le_mul_of_nonneg_right h1 hgr
        linarith
      · exact v1TexStep_bound tp B tc st.2 hi htr h.2
  · exact ⟨h.1, v1TexStep_bound tp B tc st.2 hi htr h.2⟩

theorem v1Tick_bound (gp tp : StreamParams) (B : ℕ) (gc tc gMark tMark : ℤ)
    (hgr : 0 ≤ gp.frameRate) (htr : 0 ≤ tp.frameRate)
    (hg : gMark ≤ gc + (B : ℤ) * gp.frameRate)
    (ht : tMark ≤ tc + (B : ℤ) * tp.frameRate) :
    (v1Tick gp tp B gc tc gMark tMark).1.1 ≤ gc + (B : ℤ) * gp.frameRate ∧
      (v1Tick gp tp B gc tc gMark tMark).2.1 ≤ tc + (B : ℤ) * tp.frameRate := by
  unfold v1Tick
  refine foldl_invariant
    (fun (st : (ℤ × List ℤ) × (ℤ × List ℤ)) =>
      st.1.1 ≤ gc + (B : ℤ) * gp.frameRate ∧ st.2.1 ≤ tc + (B : ℤ) * tp.frameRate)
    (fun i => i < B) _ ?_ _ _ (fun b hb => List.mem_range.mp hb) ⟨hg, ht⟩
  intro a i hQ hP
  exact v1Iter_bound gp tp B gc tc a hQ hgr htr hP

/-- C3: at the end of every `fetchBuffers` tick, each stream's high-water
mark minus the playhead frame computed at that tick is at most
`bufferDuration * frameRate`.  First conjunct: part_001/player.ts, whose
loop has no explicit gap check — over any tick sequence with
non-decreasing, non-negative playhead frames (the clock is monotone while
playing and `Math.round(time * frameRate)` is monotone in time) and the
mark starting at -1, the bound holds at every tick, since `cs ++ [c]`
ranges over every prefix.  Second conjunct: part_000's combined loop with
its explicit leaky-bucket gap check preserves the same per-stream bound on
every tick, for both its geometry and texture (segment) streams. -/
theorem C3_leaky_bucket_bound :
    (∀ (B : ℕ) (p : StreamParams) (cs : List ℤ) (c : ℤ), 0 ≤ p.frameRate →
      List.Chain' (· ≤ ·) (cs ++ [c]) → (∀ x ∈ cs ++ [c], 0 ≤ x) →
      runTicks B p (cs ++ [c]) (-1) - c ≤ (B : ℤ) * p.frameRate) ∧
      (∀ (B : ℕ) (gp tp : StreamParams) (gc tc gMark tMark : ℤ),
        0 ≤ gp.frameRate → 0 ≤ tp.frameRate →
        gMark - gc ≤ (B : ℤ) * gp.frameRate → tMark - tc ≤ (B : ℤ) * tp.frameRate →
        (v1Tick gp tp B gc tc gMark tMark).1.1 - gc ≤ (B : ℤ) * gp.frameRate ∧
          (v1Tick gp tp B gc tc gMark tMark).2.1 - tc ≤ (B : ℤ) * tp.frameRate) := by
  constructor
  · intro B p cs c hr hchain hnn
    have hB : (0 : ℤ) ≤ (B : ℤ) * p.frameRate := mul_nonneg (by positivity) hr
    exact streamChain_bound B p hr cs c (-1) 0 (by linarith)
      (chain_of_chain'_nonneg _ hchain hnn)
  · intro B gp tp gc tc gMark tMark hgr htr hg ht
    have h := v1Tick_bound gp tp B gc tc gMark tMark hgr htr (by linarith) (by linarith)
    exact ⟨by linarith [h.1], by linarith [h.2]⟩

/-- C3 witness: frameRate 30, frameCount 300, bufferDuration 4, part_001
ticks at playhead frames 0 then 60 (the mark reaches 180 and
180 - 60 ≤ 120); part_000 tick with both marks at -1 and playheads 0. -/
theorem C3_witness :
    (0 : ℤ) ≤ (30 : ℤ) ∧ List.Chain' (· ≤ ·) ([0] ++ [(60 : ℤ)]) ∧
      (∀ x ∈ [0] ++ [(60 : ℤ)], 0 ≤ x) ∧
      runTicks 4 ⟨30, 300⟩ ([0] ++ [60]) (-1) - 60 ≤ ((4 : ℕ) : ℤ) * 30 ∧
      ((-1 : ℤ) - 0 ≤ ((4 : ℕ) : ℤ) * 30) ∧
      (v1Tick ⟨30, 300⟩ ⟨1, 10⟩ 4 0 0 (-1) (-1)).1.1 - 0 ≤ ((4 : ℕ) : ℤ) * 30 ∧
      (v1Tick ⟨30, 300⟩ ⟨1, 10⟩ 4 0 0 (-1) (-1)).2.1 - 0 ≤ ((4 : ℕ) : ℤ) * 1 :=
  ⟨by decide, by simp, by decide,
    C3_leaky_bucket_bound.1 4 ⟨30, 300⟩ [0] 60 (by decide) (by simp) (by decide),
    by decide,
    (C3_leaky_bucket_bound.2 4 ⟨30, 300⟩ ⟨1, 10⟩ 0 0 (-1) (-1) (by decide) (by decide)
      (by decide) (by decide)).1,
    (C3_leaky_bucket_bound.2 4 ⟨30, 300⟩ ⟨1, 10⟩ 0 0 (-1) (-1) (by decide) (by decide)
      (by decide) (by decide)).2⟩

theorem rangeList_nodup (lo hi : ℤ) : (rangeList lo hi).Nodup := by
  have hinj : Function.Injective (fun k : ℕ => lo + (k : ℤ)) := by
    intro a b hab
    simpa using hab
  exact List.Nodup.map hinj (List.nodup_range _)

theorem rangeList_mem {lo hi x : ℤ} : x ∈ rangeList lo hi ↔ lo ≤ x ∧ x ≤ hi := by
  unfold rangeList
  simp only [List.mem_map, List.mem_range]
  constructor
  · rintro ⟨k, hk, rfl⟩
    omega
  · rintro ⟨h1, h2⟩
    exact ⟨(x - lo).toNat, by omega, by omega⟩

/-- Within one `fetchBuffers` tick, the issued requests are pairwise
distinct, all strictly above the entering high-water mark and at most the
leaving one. -/
theorem streamTick_requests (B : ℕ) (p : StreamParams) (c mark : ℤ) :
    ((streamTick B p c mark).2).Nodup ∧
      (∀ f ∈ (streamTick B p c mark).2, mark < f ∧ f ≤ (streamTick B p c mark).1) := by
  unfold streamTick
  have h := foldl_invariant
    (fun (st : ℤ × List ℤ) =>
      st.2.Nodup ∧ (∀ f ∈ st.2, mark < f ∧ f ≤ st.1) ∧ mark ≤ st.1)
    (fun _ => True) (streamIter p c) ?_ (List.range B) (mark, [])
    (fun _ _ => trivial) ⟨List.nodup_nil, by simp, le_rfl⟩
  · exact ⟨h.1, h.2.1⟩
  · rintro st i - ⟨hnd, hmem, hle⟩
    unfold streamIter
    split
    · rename_i hcond
      refine ⟨?_, ?_, ?_⟩
      · refine List.Nodup.append hnd (rangeList_nodup _ _) ?_
        intro x hx hx2
        have h1 := (hmem x hx).2
        have h2 := (rangeList_mem.mp hx2).1
        omega
      · intro f hf
        rcases List.mem_append.mp hf with hf | hf
        · have h1 := hmem f hf
          have h2 := hcond.2
          exact ⟨h1.1, by dsimp only; omega⟩
        · have h2 := rangeList_mem.mp hf
          exact ⟨by omega, by dsimp only; omega⟩
      · have h2 := hcond.2
        dsimp only
        omega
    · exact ⟨hnd, hmem, hle⟩

/-- Across a whole session, the accumulated request list stays duplicate-free
and below the high-water mark. -/
theorem runTicksReq_invariant (B : ℕ) (p : StreamParams) (cs : List ℤ) (mark : ℤ) :
    ((runTicksReq B p cs (mark, [])).2).Nodup ∧
      ∀ f ∈ (runTicksReq B p cs (mark, [])).2, f ≤ (runTicksReq B p cs (mark, [])).1 := by
  unfold runTicksReq
  exact foldl_invariant
    (fun (st : ℤ × List ℤ) => st.2.Nodup ∧ ∀ f ∈ st.2, f ≤ st.1)
    (fun _ => True) _
    (by
      rintro ⟨m, acc⟩ c - ⟨hnd, hmem⟩
      have ht := streamTick_requests B p c m
      have hle := streamTick_mark_le B p c m
      dsimp only
      refine ⟨?_, ?_⟩
      · refine List.Nodup.append hnd ht.1 ?_
        intro x hx hx2
        have h1 := hmem x hx
        have h2 := (ht.2 x hx2).1
        omega
      · intro f hf
        rcases List.mem_append.mp hf with hf | hf
        · exact le_trans (hmem f hf) hle
        · exact (ht.2 f hf).2)
    cs (mark, []) (fun _ _ => trivial) ⟨List.nodup_nil, by simp⟩

/-- C4: across all `fetchBuffers` ticks of one track session, each frame
number is requested at most once per stream — the high-water mark advances
synchronously at request-issue time, so every tick only requests frames
strictly above it.  `cs` is the (arbitrary) sequence of playhead frames
seen by the ticks; the mark starts at -1 as set by `playTrack`. -/
theorem C4_no_duplicate_requests (B : ℕ) (p : StreamParams) (cs : List ℤ) (f : ℤ) :
    ((runTicksReq B p cs ((-1 : ℤ), [])).2).count f ≤ 1 :=
  List.nodup_iff_count_le_one.mp (runTicksReq_invariant B p cs (-1)).1 f

/-- State consulted and mutated by `adjustTextureTarget` (part_001 lines
527-559): the rolling stats window `trackData.stats`, the sorted baseColor
target list `trackData.textureTargets['baseColor']` and the active target
`trackData.currentTextureTarget['baseColor']`.  Stat samples are
`fetchTime / playTime` ratios, modelled as rationals. -/
structure ABRState where
  stats : List ℚ
  textureTargets : List String
  currentTarget : String
deriving DecidableEq

/-- `adjustTextureTarget` from part_001: return unchanged when fewer than 3
samples are present; otherwise take the arithmetic mean, shift the active
baseColor target by at most one position in the target list, and clear the
stats window.  JS `indexOf` yields -1 when the element is absent whereas
`List.indexOf` yields the length; the two translations agree whenever the
current target is a member of the target list, an invariant `playTrack`
establishes and the controller preserves. -/
def adjustTextureTarget (s : ABRState) : ABRState :=
  if s.stats.length < 3 then s
  else
    let mean : ℚ := s.stats.sum / (s.stats.length : ℚ)
    if 0 ≤ mean ∧ mean ≤ 3 / 10 then
      let idx := s.textureTargets.indexOf s.currentTarget
      if idx < s.textureTargets.length - 1 then
        { s with stats := [],
                 currentTarget := s.textureTargets.getD (idx + 1) s.currentTarget }
      else { s with stats := [] }
    else if 3 / 10 ≤ mean ∧ mean ≤ 6 / 10 then
      { s with stats := [] }
    else
      let idx := s.textureTargets.indexOf s.currentTarget
      if 0 < idx then
        { s with stats := [],
                 currentTarget := s.textureTargets.getD (idx - 1) s.currentTarget }
      else { s with stats := [] }

theorem indexOf_getD_of_lt (l : List String) (cur : String) (hnd : l.Nodup)
    {n : ℕ} (h : n < l.length) :
    l.indexOf (l.getD n cur) = n := by
  rw [List.getD_eq_getElem l cur h]
  exact List.indexOf_getElem hnd n h

/-- C5: the adaptive quality controller acts only once at least 3 samples
are in the stats window; it then takes the arithmetic mean and empties the
window; if the mean is ≤ 0.3 the active baseColor target index increases by
exactly 1 unless already the highest, if it is in (0.3, 0.6] the target is
unchanged, and if it is > 0.6 the index decreases by exactly 1 unless
already 0.  The samples are non-negative (each pushed stat is
`fetchTime / playTime` with `fetchTime ≥ 0` and `playTime > 0`), the active
target belongs to the target list, and the list has no duplicate names
(targets are distinct manifest keys). -/
theorem C5_abr_monotone_step (s : ABRState)
    (hmem : s.currentTarget ∈ s.textureTargets) (hnd : s.textureTargets.Nodup)
    (hnn : ∀ x ∈ s.stats, 0 ≤ x) :
    (s.stats.length < 3 → adjustTextureTarget s = s) ∧
      (3 ≤ s.stats.length →
        (adjustTextureTarget s).stats = [] ∧
          (adjustTextureTarget s).textureTargets = s.textureTargets ∧
          ((s.stats.sum / (s.stats.length : ℚ) ≤ 3 / 10 →
              s.textureTargets.indexOf (adjustTextureTarget s).currentTarget =
                (if s.textureTargets.indexOf s.currentTarget + 1 < s.textureTargets.length
                  then s.textureTargets.indexOf s.currentTarget + 1
                  else s.textureTargets.indexOf s.currentTarget)) ∧
            (3 / 10 < s.stats.sum / (s.stats.length : ℚ) →
              s.stats.sum / (s.stats.length : ℚ) ≤ 6 / 10 →
              (adjustTextureTarget s).currentTarget = s.currentTarget) ∧
            (6 / 10 < s.stats.sum / (s.stats.length : ℚ) →
              s.textureTargets.indexOf (adjustTextureTarget s).currentTarget =
                (if s.textureTargets.indexOf s.currentTarget = 0 then 0
                  else s.textureTargets.indexOf s.currentTarget - 1)))) := by
  have hidx := List.indexOf_lt_length.mpr hmem
  constructor
  · intro hlt
    unfold adjustTextureTarget
    rw [if_pos hlt]
  · intro hge
    have hlen : ¬ s.stats.length < 3 := by omega
    have hmean0 : 0 ≤ s.stats.sum / (s.stats.length : ℚ) := by
      apply div_nonneg (List.sum_nonneg hnn)
      positivity
    unfold adjustTextureTarget
    rw [if_neg hlen]
    set mean := s.stats.sum / (s.stats.length : ℚ) with hmeandef
    by_cases h1 : mean ≤ 3 / 10
    · rw [if_pos ⟨hmean0, h1⟩]
      by_cases h2 : List.indexOf s.currentTarget s.textureTargets <
          s.textureTargets.length - 1
      · rw [if_pos h2]
        refine ⟨rfl, rfl, ?_, ?_, ?_⟩
        · intro _
          have hlt' : List.indexOf s.currentTarget s.textureTargets + 1 <
              s.textureTargets.length := by omega
          rw [if_pos hlt']
          exact indexOf_getD_of_lt _ _ hnd hlt'
        · intro h3 _
          linarith
        · intro h3
          linarith
      · rw [if_neg h2]
        refine ⟨rfl, rfl, ?_, ?_, ?_⟩
        · intro _
          have hge' : ¬ List.indexOf s.currentTarget s.textureTargets + 1 <
              s.textureTargets.length := by omega
          rw [if_neg hge']
        · intro h3 _
          linarith
        · intro h3
          linarith
    · rw [if_neg (fun hc => h1 hc.2)]
      by_cases h2 : mean ≤ 6 / 10
      · rw [if_pos ⟨le_of_lt (lt_of_not_le h1), h2⟩]
        refine ⟨rfl, rfl, ?_, ?_, ?_⟩
        · intro h3
          exact absurd h3 h1
        · intro _ _
          rfl
        · intro h3
          exact absurd h2 (not_le.mpr h3)
      · rw [if_neg (fun hc => h2 hc.2)]
        by_cases h3 : 0 < List.indexOf s.currentTarget s.textureTargets
        · rw [if_pos h3]
          refine ⟨rfl, rfl, ?_, ?_, ?_⟩
          · intro h4
            exact absurd h4 h1
          · intro _ h4
            exact absurd h4 h2
          · intro _
            have hne : ¬ List.indexOf s.currentTarget s.textureTargets = 0 := by omega
            rw [if_neg hne]
            exact indexOf_getD_of_lt _ _ hnd (by omega)
        · rw [if_neg h3]
          refine ⟨rfl, rfl, ?_, ?_, ?_⟩
          · intro h4
            exact absurd h4 h1
          · intro _ h4
            exact absurd h4 h2
          · intro _
            have hz : List.indexOf s.currentTarget s.textureTargets = 0 := by omega
            rw [if_pos hz, hz]

/-- C5 witness: three samples of 1/10 (mean 1/10 ≤ 0.3) with targets
["low", "high"] and active target "low": the index rises from 0 to 1. -/
theorem C5_witness :
    ("low" ∈ ["low", "high"]) ∧
      (adjustTextureTarget ⟨[1/10, 1/10, 1/10], ["low", "high"], "low"⟩).stats = [] ∧
      ["low", "high"].indexOf
          (adjustTextureTarget ⟨[1/10, 1/10, 1/10], ["low", "high"], "low"⟩).currentTarget
        = 1 := by
  have h := C5_abr_monotone_step ⟨[1/10, 1/10, 1/10], ["low", "high"], "low"⟩
    (by decide) (by decide) (by norm_num)
  have h2 := h.2 (by decide)
  refine ⟨by decide, h2.1, ?_⟩
  have h3 := h2.2.2.1 (by norm_num)
  simpa using h3

/-- JS `Math.round(x)` = `Math.floor(x + 0.5)`; part_000's `getCurrentFrame`
and player.ts's `calculateGeometryFrame`/`calculateTextureFrame` all compute
`Math.round(currentTime * frameRate)`. -/
def jsRound (q : ℚ) : ℤ :=
  ⌊q + 1 / 2⌋

/-- The player state read by part_001's `processFrame` (lines 588-675):
the presentation time, the active geometry target with its manifest data,
the baseColor target list with each target's manifest frame rate, the active
baseColor target and tag, and the key sets of the two decoded-frame maps
(`meshMap` keys `(target, frameNo)`; `textureMap` keys
`(type, tag, target, frameNo)` with the type fixed to 'baseColor' in
`processFrame`, so the type component is dropped). -/
structure PresentState where
  currentTime : ℚ
  geometryTarget : String
  geometryFrameRate : ℚ
  geometryFrameCount : ℤ
  baseColorTargets : List String
  baseColorRates : String → ℚ
  activeTarget : String
  activeTag : String
  meshKeys : List (String × ℤ)
  textureKeys : List (String × String × ℤ)

/-- `calculateTextureFrame(manifest, 'baseColor', target, currentTime)`. -/
def calculateTextureFrame (s : PresentState) (target : String) : ℤ :=
  jsRound (s.currentTime * s.baseColorRates target)

/-- `currentGeometryFrame()` for the active geometry target. -/
def currentGeometryFrame (s : PresentState) : ℤ :=
  jsRound (s.currentTime * s.geometryFrameRate)

/-- What a presentation tick does, as observed by the caller. -/
inductive FrameOutcome
  | buffering (fraction : ℚ)
  | trackEnded
  | skipped
  | shownWithActiveTexture (frame : ℤ)
  | shownWithFallback (target : String) (frame : ℤ)
  | shownWithFailMaterial (frame : ℤ)
deriving DecidableEq

/-- part_001's `processFrame`: report buffering 0 while paused; end the
track on audio end or when the geometry playhead reaches
`frameCount - 1`; evict the just-consumed geometry and texture frames
(`currentFrame - 1`); skip if the geometry frame is absent; otherwise show
the active texture if present, else the first fallback texture found among
the baseColor targets under the 'default' tag (each at its own
frame number), else the fail material. -/
def processFrame (paused hasAudio audioEnded : Bool) (s : PresentState) : FrameOutcome :=
  if paused then .buffering 0
  else if hasAudio && audioEnded then .trackEnded
  else
    let gFrame := currentGeometryFrame s
    let tFrame := calculateTextureFrame s s.activeTarget
    let meshKeys := s.meshKeys.filter
      (fun k => decide (k ≠ (s.geometryTarget, gFrame - 1)))
    let texKeys := s.textureKeys.filter
      (fun k => decide (k ≠ (s.activeTag, s.activeTarget, tFrame - 1)))
    if s.geometryFrameCount - 1 ≤ gFrame then .trackEnded
    else if (s.geometryTarget, gFrame) ∉ meshKeys then .skipped
    else if (s.activeTag, s.activeTarget, tFrame) ∈ texKeys then
      .shownWithActiveTexture gFrame
    else
      match s.baseColorTargets.find?
          (fun t => decide (("default", t, calculateTextureFrame s t) ∈ texKeys)) with
      | some t => .shownWithFallback t (calculateTextureFrame s t)
      | none => .shownWithFailMaterial gFrame

/-- player.ts's `processFrame` (lines 582-654): the same structure as
part_001's — paused check, audio-end check, evictions, end-of-stream
check, geometry-presence check — but with **no fallback search**: when the
active texture key is absent (lines 628-635) the fail material is applied
immediately. -/
def processFrameJS (paused hasAudio audioEnded : Bool) (s : PresentState) : FrameOutcome :=
  if paused then .buffering 0
  else if hasAudio && audioEnded then .trackEnded
  else
    let gFrame := currentGeometryFrame s
    let tFrame := calculateTextureFrame s s.activeTarget
    let meshKeys := s.meshKeys.filter
      (fun k => decide (k ≠ (s.geometryTarget, gFrame - 1)))
    let texKeys := s.textureKeys.filter
      (fun k => decide (k ≠ (s.activeTag, s.activeTarget, tFrame - 1)))
    if s.geometryFrameCount - 1 ≤ gFrame then .trackEnded
    else if (s.geometryTarget, gFrame) ∉ meshKeys then .skipped
    else if (s.activeTag, s.activeTarget, tFrame) ∈ texKeys then
      .shownWithActiveTexture gFrame
    else .shownWithFailMaterial gFrame

/-- On a tick with the geometry frame present, the playhead short of
end-of-stream and the active texture key absent, player.ts's
`processFrame` applies the fail material. -/
theorem processFrameJS_fail_of_active_absent (hasAudio : Bool) (s : PresentState)
    (hend : currentGeometryFrame s < s.geometryFrameCount - 1)
    (hgeom : (s.geometryTarget, currentGeometryFrame s) ∈ s.meshKeys)
    (habs : (s.activeTag, s.activeTarget, calculateTextureFrame s s.activeTarget)
      ∉ s.textureKeys) :
    processFrameJS false hasAudio false s =
      FrameOutcome.shownWithFailMaterial (currentGeometryFrame s) := by
  have h1 : ¬ (s.geometryFrameCount - 1 ≤ currentGeometryFrame s) := not_le.mpr hend
  have h2 : (s.geometryTarget, currentGeometryFrame s) ∈ s.meshKeys.filter
      (fun k => decide (k ≠ (s.geometryTarget, currentGeometryFrame s - 1))) := by
    refine List.mem_filter.mpr ⟨hgeom, ?_⟩
    simp only [ne_eq, decide_eq_true_eq, Prod.mk.injEq, not_and]
    intro _ h
    omega
  have h3 : (s.activeTag, s.activeTarget, calculateTextureFrame s s.activeTarget)
      ∉ s.textureKeys.filter (fun k => decide (k ≠ (s.activeTag, s.activeTarget,
        calculateTextureFrame s s.activeTarget - 1))) :=
    fun hmem => habs (List.mem_of_mem_filter hmem)
  simp only [processFrameJS, Bool.and_false, if_neg h1, if_neg (not_not_intro h2),
    if_neg h3, Bool.false_eq_true, if_false]

theorem find?_append_first {α : Type} (p : α → Bool) (pre post : List α) (t : α)
    (hpre : ∀ u ∈ pre, p u = false) (ht : p t = true) :
    (pre ++ t :: post).find? p = some t := by
  induction pre with
  | nil => simp [List.find?_cons_of_pos, ht]
  | cons a l ih =>
      rw [List.cons_append, List.find?_cons_of_neg]
      · exact ih fun u hu => hpre u (List.mem_cons_of_mem _ hu)
      · simp [hpre a (List.mem_cons_self _ _)]

/-- C6 (amended): on a tick where the geometry frame for
`currentGeometryFrame` is in the store but no texture exists for the
active (tag, target) at `currentTextureFrame`: in part_001,
`processFrame` searches the available baseColor targets in list order
under the 'default' tag, each at its own frame number computed from that
target's frame rate, and displays the first texture found, applying the
fail material only when no target yields one (the search in that source
iterates over all of `textureTargets.baseColor`, including the active
target — for the active target, the searched key can only differ from the
already-missed active key in its tag); in player.ts there is no fallback
search and the fail material is applied immediately. -/
theorem C6_texture_fallback (hasAudio : Bool) (s : PresentState)
    (hend : currentGeometryFrame s < s.geometryFrameCount - 1)
    (hgeom : (s.geometryTarget, currentGeometryFrame s) ∈ s.meshKeys)
    (habs : (s.activeTag, s.activeTarget, calculateTextureFrame s s.activeTarget)
      ∉ s.textureKeys) :
    ((∀ u ∈ s.baseColorTargets,
        ("default", u, calculateTextureFrame s u) ∉ s.textureKeys) →
      processFrame false hasAudio false s =
        .shownWithFailMaterial (currentGeometryFrame s)) ∧
      (∀ pre t post, s.baseColorTargets = pre ++ t :: post →
        (∀ u ∈ pre, ("default", u, calculateTextureFrame s u) ∉ s.textureKeys) →
        ("default", t, calculateTextureFrame s t) ∈ s.textureKeys →
        processFrame false hasAudio false s =
          .shownWithFallback t (calculateTextureFrame s t)) ∧
      processFrameJS false hasAudio false s =
        FrameOutcome.shownWithFailMaterial (currentGeometryFrame s) := by
  have h1 : ¬ (s.geometryFrameCount - 1 ≤ currentGeometryFrame s) := not_le.mpr hend
  have h2 : (s.geometryTarget, currentGeometryFrame s) ∈ s.meshKeys.filter
      (fun k => decide (k ≠ (s.geometryTarget, currentGeometryFrame s - 1))) := by
    refine List.mem_filter.mpr ⟨hgeom, ?_⟩
    simp only [ne_eq, decide_eq_true_eq, Prod.mk.injEq, not_and]
    intro _ h
    omega
  have h3 : (s.activeTag, s.activeTarget, calculateTextureFrame s s.activeTarget)
      ∉ s.textureKeys.filter (fun k => decide (k ≠ (s.activeTag, s.activeTarget,
        calculateTextureFrame s s.activeTarget - 1))) :=
    fun hmem => habs (List.mem_of_mem_filter hmem)
  have hreduce : processFrame false hasAudio false s =
      (match s.baseColorTargets.find?
          (fun t => decide (("default", t, calculateTextureFrame s t) ∈
            s.textureKeys.filter (fun k => decide (k ≠ (s.activeTag, s.activeTarget,
              calculateTextureFrame s s.activeTarget - 1))))) with
        | some t => FrameOutcome.shownWithFallback t (calculateTextureFrame s t)
        | none => FrameOutcome.shownWithFailMaterial (currentGeometryFrame s)) := by
    simp only [processFrame, Bool.and_false, if_neg h1, if_neg (not_not_intro h2),
      if_neg h3, Bool.false_eq_true, if_false]
  refine ⟨?_, ?_, processFrameJS_fail_of_active_absent hasAudio s hend hgeom habs⟩
  · intro hnone
    rw [hreduce]
    have hfind : s.baseColorTargets.find?
        (fun t => decide (("default", t, calculateTextureFrame s t) ∈
          s.textureKeys.filter (fun k => decide (k ≠ (s.activeTag, s.activeTarget,
            calculateTextureFrame s s.activeTarget - 1))))) = none := by
      rw [List.find?_eq_none]
      intro t htmem
      simp only [decide_eq_true_eq]
      intro hmem
      exact hnone t htmem (List.mem_of_mem_filter hmem)
    rw [hfind]
  · intro pre t post hsplit hpre htmem
    rw [hreduce]
    have hfind : s.baseColorTargets.find?
        (fun u => decide (("default", u, calculateTextureFrame s u) ∈
          s.textureKeys.filter (fun k => decide (k ≠ (s.activeTag, s.activeTarget,
            calculateTextureFrame s s.activeTarget - 1))))) = some t := by
      rw [hsplit]
      apply find?_append_first
      · intro u hu
        simp only [decide_eq_false_iff_not]
        intro hmem
        exact hpre u hu (List.mem_of_mem_filter hmem)
      · simp only [decide_eq_true_eq]
        refine List.mem_filter.mpr ⟨htmem, ?_⟩
        simp only [ne_eq, decide_eq_true_eq]
        intro heq
        have hc2 : t = s.activeTarget := congrArg (fun k => k.2.1) heq
        have hc3 : calculateTextureFrame s t =
            calculateTextureFrame s s.activeTarget - 1 :=
          congrArg (fun k => k.2.2) heq
        rw [hc2] at hc3
        omega
    rw [hfind]

/-- The spec's scenario: t = 5/3 s; geometry at 30 fps with frame 50
decoded; active baseColor target "high" (30 fps) whose frame 50 is absent;
fallback target "low" (15 fps) whose 'default'-tag frame 25 is decoded. -/
def fallbackScenario : PresentState where
  currentTime := 5 / 3
  geometryTarget := "geo"
  geometryFrameRate := 30
  geometryFrameCount := 300
  baseColorTargets := ["low", "high"]
  baseColorRates := fun t => if t = "low" then 15 else 30
  activeTarget := "high"
  activeTag := "default"
  meshKeys := [("geo", 50)]
  textureKeys := [("default", "low", 25)]

theorem fallbackScenario_gFrame : currentGeometryFrame fallbackScenario = 50 := by
  norm_num [currentGeometryFrame, fallbackScenario, jsRound]

theorem fallbackScenario_lowFrame : calculateTextureFrame fallbackScenario "low" = 25 := by
  norm_num [calculateTextureFrame, fallbackScenario, jsRound]

theorem fallbackScenario_highFrame : calculateTextureFrame fallbackScenario "high" = 50 := by
  show jsRound (fallbackScenario.currentTime * fallbackScenario.baseColorRates "high") = 50
  rw [show fallbackScenario.baseColorRates "high" = 30 from by simp [fallbackScenario]]
  norm_num [fallbackScenario, jsRound]

/-- C6 counterexample: in `fallbackScenario` the "low" target's
'default'-tag texture is decoded at its own frame 25, yet player.ts's
`processFrame` — which has no fallback search — applies the failure
material to geometry frame 50, refuting "the failure material is applied
only when no target yields a texture" on that cited source. -/
theorem C6_counterexample :
    (("default", "low", calculateTextureFrame fallbackScenario "low")
        ∈ fallbackScenario.textureKeys) ∧
      processFrameJS false false false fallbackScenario =
        FrameOutcome.shownWithFailMaterial (currentGeometryFrame fallbackScenario) :=
  ⟨by simp only [fallbackScenario_lowFrame]; simp [fallbackScenario],
    processFrameJS_fail_of_active_absent false fallbackScenario
      (by simp only [fallbackScenario_gFrame]; simp [fallbackScenario])
      (by simp only [fallbackScenario_gFrame]; simp [fallbackScenario])
      (by
        show ("default", "high", calculateTextureFrame fallbackScenario "high")
          ∉ fallbackScenario.textureKeys
        simp only [fallbackScenario_highFrame]
        simp [fallbackScenario])⟩

/-- C6 witness: in `fallbackScenario`, part_001's Presenter shows geometry
frame 50 with the "low"-target fallback texture at its own frame 25, not
the fail material, while player.ts's applies the fail material. -/
theorem C6_witness :
    (currentGeometryFrame fallbackScenario <
        fallbackScenario.geometryFrameCount - 1) ∧
      (("geo", currentGeometryFrame fallbackScenario) ∈ fallbackScenario.meshKeys) ∧
      (("default", "high", calculateTextureFrame fallbackScenario "high")
          ∉ fallbackScenario.textureKeys) ∧
      processFrame false false false fallbackScenario =
        FrameOutcome.shownWithFallback "low"
          (calculateTextureFrame fallbackScenario "low") ∧
      processFrameJS false false false fallbackScenario =
        FrameOutcome.shownWithFailMaterial (currentGeometryFrame fallbackScenario) := by
  have h := C6_texture_fallback false fallbackScenario
    (by simp only [fallbackScenario_gFrame]; simp [fallbackScenario])
    (by simp only [fallbackScenario_gFrame]; simp [fallbackScenario])
    (by
      show ("default", "high", calculateTextureFrame fallbackScenario "high")
        ∉ fallbackScenario.textureKeys
      simp only [fallbackScenario_highFrame]
      simp [fallbackScenario])
  exact ⟨by simp only [fallbackScenario_gFrame]; simp [fallbackScenario],
    by simp only [fallbackScenario_gFrame]; simp [fallbackScenario],
    by simp only [fallbackScenario_highFrame]; simp [fallbackScenario],
    h.2.1 [] "low" ["high"] (by simp [fallbackScenario])
      (fun u hu => absurd hu (List.not_mem_nil u))
      (by simp only [fallbackScenario_lowFrame]; simp [fallbackScenario]),
    h.2.2⟩

/-- part_000's `removePlayedBuffer` (lines 487-501), one map at a time (the
source sweeps `meshMap` with threshold `frameNo` and `textureMap` with
threshold `segmentNo` using two identical loops): dispose and delete every
entry whose key is strictly below the threshold.  Returns the remaining
entries and the disposed buffers. -/
def removePlayedBuffer {α : Type} (threshold : ℤ) (m : List (ℤ × α)) :
    List (ℤ × α) × List α :=
  (m.filter (fun e => decide (¬ e.1 < threshold)),
    (m.filter (fun e => decide (e.1 < threshold))).map Prod.snd)

/-- part_001's `removePlayedGeometryBuffer` (lines 684-690): if `meshMap`
has exactly the given `(target, frameNo)` key, dispose that one buffer and
delete that one key; all other entries are untouched.
(`removePlayedTextureBuffer` is the same with 4-component keys.) -/
def removePlayedGeometryBuffer {α : Type} (key : String × ℤ)
    (m : List ((String × ℤ) × α)) : List ((String × ℤ) × α) × List α :=
  if m.any (fun e => decide (e.1 = key)) then
    (m.filter (fun e => decide (e.1 ≠ key)),
      (m.filter (fun e => decide (e.1 = key))).map Prod.snd)
  else (m, [])

/-- C7 counterexample: in part_001 eviction is driven per presentation tick
with the single key `(target, currentFrame - 1)`; with currentFrame = 8 the
call removes nothing below the threshold 7 — the entry at frame 5 (< 7)
survives, refuting "removes every store entry whose frame number is
strictly less than t". -/
theorem C7_counterexample :
    (5 : ℤ) < 7 ∧
      ((("T", (5 : ℤ)), ()) ∈
        (removePlayedGeometryBuffer ("T", 7) [((("T", (5 : ℤ))), ())]).1) := by
  decide

/-- C7 (amended): part_000's `removePlayedBuffer` removes exactly the
entries whose frame number is strictly below the threshold, handing each
removed buffer to its dispose hook; part_001's `removePlayedGeometryBuffer`
removes (and disposes) exactly the entry at the given key and keeps every
other entry, including older ones.  In both players the frame currently
selected for presentation is never evicted: part_000's `update` drives the
geometry sweep with threshold `currentFrame - 5`, and part_001's
`processFrame` drives eviction with key frame `currentFrame - 1`. -/
theorem C7_eviction_behavior (α : Type) :
    (∀ (t : ℤ) (m : List (ℤ × α)) (e : ℤ × α),
        e ∈ (removePlayedBuffer t m).1 ↔ e ∈ m ∧ t ≤ e.1) ∧
      (∀ (t : ℤ) (m : List (ℤ × α)) (e : ℤ × α), e ∈ m → e.1 < t →
        e.2 ∈ (removePlayedBuffer t m).2) ∧
      (∀ (key : String × ℤ) (m : List ((String × ℤ) × α)) (e : (String × ℤ) × α),
        e ∈ (removePlayedGeometryBuffer key m).1 ↔ e ∈ m ∧ e.1 ≠ key) ∧
      (∀ (c : ℤ) (m : List (ℤ × α)) (v : α), (c, v) ∈ m →
        (c, v) ∈ (removePlayedBuffer (c - 5) m).1) ∧
      (∀ (tgt : String) (c : ℤ) (m : List ((String × ℤ) × α)) (v : α),
        ((tgt, c), v) ∈ m →
        ((tgt, c), v) ∈ (removePlayedGeometryBuffer (tgt, c - 1) m).1) := by
  have hsweep : ∀ (t : ℤ) (m : List (ℤ × α)) (e : ℤ × α),
      e ∈ (removePlayedBuffer t m).1 ↔ e ∈ m ∧ t ≤ e.1 := by
    intro t m e
    unfold removePlayedBuffer
    rw [List.mem_filter]
    simp [not_lt]
  have hsingle : ∀ (key : String × ℤ) (m : List ((String × ℤ) × α))
      (e : (String × ℤ) × α),
      e ∈ (removePlayedGeometryBuffer key m).1 ↔ e ∈ m ∧ e.1 ≠ key := by
    intro key m e
    unfold removePlayedGeometryBuffer
    split
    · rw [List.mem_filter]
      simp
    · rename_i hany
      have hall : ∀ x ∈ m, ¬ x.1 = key := by
        intro x hx
        by_contra hxk
        exact hany (List.any_eq_true.mpr ⟨x, hx, by simpa using hxk⟩)
      constructor
      · intro he
        exact ⟨he, hall e he⟩
      · intro he
        exact he.1
  refine ⟨hsweep, ?_, hsingle, ?_, ?_⟩
  · intro t m e he hlt
    unfold removePlayedBuffer
    exact List.mem_map.mpr ⟨e, List.mem_filter.mpr ⟨he, by simpa using hlt⟩, rfl⟩
  · intro c m v hmem
    exact (hsweep (c - 5) m (c, v)).mpr ⟨hmem, by omega⟩
  · intro tgt c m v hmem
    refine (hsingle (tgt, c - 1) m ((tgt, c), v)).mpr ⟨hmem, ?_⟩
    intro heq
    have : c = c - 1 := congrArg Prod.snd heq
    omega

/-- C7 witness: the entry at the current frame 9 survives part_001's
eviction at key frame 8 (= currentFrame - 1). -/
theorem C7_witness :
    ((("T", (9 : ℤ)), ()) ∈ [((("T", (9 : ℤ))), ())]) ∧
      ((("T", (9 : ℤ)), ()) ∈
        (removePlayedGeometryBuffer ("T", 9 - 1) [((("T", (9 : ℤ))), ())]).1) :=
  ⟨by decide, (C7_eviction_behavior Unit).2.2.2.2 "T" 9 [((("T", (9 : ℤ))), ())] ()
    (by decide)⟩

/-- `timeData` in part_001/player.ts: the presentation time in seconds,
`startTime`, `pausedTime` and `totalPausedDuration` in `Date.now()`
milliseconds, and the wall-clock paused flag. -/
structure TimeData where
  currentTime : ℚ
  startTime : ℤ
  pausedTime : ℤ
  totalPausedDuration : ℤ
  isClockPaused : Bool
deriving DecidableEq

/-- `timeData` as initialized by `playTrack`. -/
def initTimeData : TimeData :=
  { currentTime := 0, startTime := -1, pausedTime := 0,
    totalPausedDuration := 0, isClockPaused := true }

/-- `startVideo` (wall-clock branch): record the start timestamp and
unpause the clock. -/
def startVideoClock (now : ℤ) (t : TimeData) : TimeData :=
  { t with startTime := now, isClockPaused := false }

/-- `pause()` (wall-clock branch): set the paused flag and record the
pause timestamp. -/
def pauseClock (now : ℤ) (t : TimeData) : TimeData :=
  { t with isClockPaused := true, pausedTime := now }

/-- `play()` (wall-clock branch): when paused, add the elapsed pause
interval to the accumulator and unpause. -/
def playClock (now : ℤ) (t : TimeData) : TimeData :=
  if t.isClockPaused then
    { t with totalPausedDuration := t.totalPausedDuration + (now - t.pausedTime),
             isClockPaused := false }
  else t

/-- The wall-clock recomputation in `processFrame`:
`currentTime = (Date.now() - startTime - totalPausedDuration) / 1000`. -/
def tickClock (now : ℤ) (t : TimeData) : TimeData :=
  { t with currentTime := ((now - t.startTime - t.totalPausedDuration : ℤ) : ℚ) / 1000 }

/-- C8: in wall-clock mode, a tick at time `w` after starting at `s`,
pausing at `p` and resuming at `r` recomputes the presentation time as
`(now - startTime - totalPausedDuration) / 1000 = ((w - s) - (r - p)) / 1000`
seconds; `pause` records the pause timestamp and sets the paused flag;
`play` on resume adds the elapsed pause interval to the accumulator; and
concretely, starting at 0 ms, pausing at 1 s for 2 s and reading at 5 s of
real time yields 3 s of presentation time. -/
theorem C8_wall_clock (s p r w : ℤ) :
    ((tickClock w (playClock r (pauseClock p (startVideoClock s initTimeData)))).currentTime
        = ((w - s - (r - p) : ℤ) : ℚ) / 1000) ∧
      (pauseClock p (startVideoClock s initTimeData)).isClockPaused = true ∧
      (pauseClock p (startVideoClock s initTimeData)).pausedTime = p ∧
      (playClock r (pauseClock p (startVideoClock s initTimeData))).totalPausedDuration
        = r - p ∧
      (tickClock 5000 (playClock 3000 (pauseClock 1000
        (startVideoClock 0 initTimeData)))).currentTime = 3 := by
  refine ⟨?_, rfl, rfl, ?_, ?_⟩
  · simp only [initTimeData, startVideoClock, pauseClock, playClock, tickClock, if_pos]
    norm_num
  · simp only [initTimeData, startVideoClock, pauseClock, playClock, if_pos]
    norm_num
  · simp only [initTimeData, startVideoClock, pauseClock, playClock, tickClock, if_pos]
    norm_num

/-- part_000's `processFrame` up to its paused branch (lines 359-380):
after the audio-ended check, a tick taken while paused reports
`meshMap.size / (gFrameRate * bufferDuration)` through `onMeshBuffering`.
Returns the fraction handed to the callback when that branch fires. -/
def processFramePausedReport (hasAudioURL audioEnded paused : Bool)
    (meshMapSize : ℕ) (gFrameRate bufferDuration : ℚ) : Option ℚ :=
  if hasAudioURL && audioEnded then none
  else if paused then some ((meshMapSize : ℚ) / (gFrameRate * bufferDuration))
  else none

/-- C9 counterexample: part_001's `processFrame` (and player.ts's) invokes
the buffering callback with the constant 0 on a paused tick, not with the
fraction `bufferedFrames / (frameRate * bufferDuration)`, which here would
be 1 / (30 * 4). -/
theorem C9_counterexample :
    processFrame true false false fallbackScenario = FrameOutcome.buffering 0 ∧
      ((fallbackScenario.meshKeys.length : ℚ) /
          (fallbackScenario.geometryFrameRate * 4) = 1 / 120) ∧
      (0 : ℚ) ≠ 1 / 120 := by
  refine ⟨rfl, ?_, by norm_num⟩
  norm_num [fallbackScenario]

/-- C9 (amended): in part_000, a presentation tick taken while paused (and
audio not ended) invokes the buffering callback with
`meshMap.size / (frameRate * bufferDuration)` over the geometry stream; in
part_001 and player.ts the paused branch invokes it with the constant 0. -/
theorem C9_buffering_report (hasAudioURL audioEnded paused hasAudio : Bool)
    (sz : ℕ) (rate dur : ℚ) (s : PresentState)
    (hae : (hasAudioURL && audioEnded) = false) (hp : paused = true) :
    processFramePausedReport hasAudioURL audioEnded paused sz rate dur
        = some ((sz : ℚ) / (rate * dur)) ∧
      processFrame true hasAudio audioEnded s = FrameOutcome.buffering 0 := by
  constructor
  · simp [processFramePausedReport, hae, hp]
  · rfl

/-- C9 witness: no audio, paused, 10 buffered geometry frames at 30 fps
with 4 s of buffer. -/
theorem C9_witness :
    ((false && false) = false) ∧ (true = true) ∧
      processFramePausedReport false false true 10 30 4 = some ((10 : ℚ) / (30 * 4)) ∧
      processFrame true false false fallbackScenario = FrameOutcome.buffering 0 :=
  ⟨rfl, rfl, C9_buffering_report false false true false 10 30 4 fallbackScenario rfl rfl⟩

/-- The `trackData` fields the `paused` getter could consult: the audio
mode flag, plus a stand-in for the manifest-derived data it never reads. -/
structure TrackView where
  hasAudio : Bool
  manifestGeometryFrameCount : ℤ
deriving DecidableEq

/-- player.ts (lines 173-182) / part_001 (lines 164-173) `get paused()`:
true when no track session or no time state exists; otherwise the audio
element's paused state in audio mode, else the wall-clock paused flag. -/
def pausedGetter (trackData : Option TrackView) (timeData : Option TimeData)
    (audioPaused : Bool) : Bool :=
  match trackData, timeData with
  | some td, some t => if td.hasAudio then audioPaused else t.isClockPaused
  | _, _ => true

/-- C10: the public `paused` getter returns true whenever no track session
or no time state exists, whatever the other fields hold (it reads no track
or manifest data); only when both exist does it return the audio element's
paused state (audio mode) or the internal clock-paused flag. -/
theorem C10_paused_getter (trackData : Option TrackView) (timeData : Option TimeData)
    (audioPaused : Bool) :
    ((trackData = none ∨ timeData = none) →
        pausedGetter trackData timeData audioPaused = true) ∧
      (∀ td t, trackData = some td → timeData = some t →
        pausedGetter trackData timeData audioPaused =
          (if td.hasAudio then audioPaused else t.isClockPaused)) := by
  constructor
  · rintro (rfl | rfl)
    · cases timeData <;> rfl
    · cases trackData <;> rfl
  · rintro td t rfl rfl
    rfl

/-- C10 witness: before `playTrack`, both states are absent and `paused`
is true; with a session in wall-clock mode it mirrors the clock flag. -/
theorem C10_witness :
    ((none : Option TrackView) = none ∨ (none : Option TimeData) = none) ∧
      pausedGetter none none false = true ∧
      pausedGetter (some ⟨false, 300⟩) (some initTimeData) false =
        (if (false : Bool) then false else initTimeData.isClockPaused) :=
  ⟨Or.inl rfl,
    (C10_paused_getter none none false).1 (Or.inl rfl),
    (C10_paused_getter (some ⟨false, 300⟩) (some initTimeData) false).2
      ⟨false, 300⟩ initTimeData rfl rfl⟩

end UVOL
